import Mathlib

/-!
Verification of the remotefs connector (address codec, configuration model,
planner, executor and enumerator) against its natural-language specification.

The Rust source is shallowly embedded:
* Rust `Path`/`PathBuf` values are modelled by `RPath`: an absoluteness flag
  plus the list of (normalized) components, mirroring `Path::components()`
  (empty components never occur; a non-leading "." component is normalized
  away, which `RPath.join` reproduces when appending).
* Fallible Rust functions returning `Result` become `Except Unit`.
* Remote I/O performed through a cached SSH session is modelled by an oracle
  record `Behavior`; each embedded operation additionally returns the list of
  remote calls it issued (`RCall`) and, for the executor, the session's final
  working directory.
* `Vec<u8>` byte bodies become `List Nat`; the planner never inspects them.
-/

deriving instance DecidableEq for Except

/-- A component is "normal" when Rust's `Path::components()` would keep it in a
non-leading position: it is neither empty nor the "." component. -/
def isNormalComp (c : String) : Bool := c ≠ "" && c ≠ "."

/-- Model of a Rust `Path`/`PathBuf`: absoluteness plus the component list. -/
structure RPath where
  absolute : Bool
  comps : List String
deriving DecidableEq, Repr

/-- Rust `Path::join`: an absolute argument replaces the receiver; joining onto
the empty relative path yields the argument; otherwise the argument's
components are appended, dropping components that Rust's normalization would
drop once they are no longer leading ("" and "."). -/
def RPath.join (a b : RPath) : RPath :=
  if b.absolute then b
  else if !a.absolute && a.comps.isEmpty then b
  else ⟨a.absolute, a.comps ++ b.comps.filter isNormalComp⟩

/-- Rust `Path::starts_with`: component-wise prefix test (absoluteness must
agree). -/
def RPath.startsWith (p base : RPath) : Bool :=
  p.absolute == base.absolute && base.comps.isPrefixOf p.comps

/-- Rust `Path::to_string_lossy` on a model path. -/
def RPath.render (p : RPath) : String :=
  (if p.absolute then "/" else "") ++ String.intercalate "/" p.comps

/-- The path `PathBuf::from("/")`. -/
def rootPath : RPath := ⟨true, []⟩

/-- Interpreting a hostname string as a Rust path, as
`PathBuf::from("remotefs").join(self.hostname.clone())` does.  Faithful for
hostnames without path separators: the empty string contributes no component
(Rust's `join("")` only adds a trailing slash), and any other separator-free
string is a single component ("." is dropped later by `RPath.join`'s
normalization since it is never in leading position there). -/
def pathOfHostname (s : String) : RPath :=
  if s = "" then ⟨false, []⟩ else ⟨false, [s]⟩

/-- `src/addr.rs`: a decoded logical identifier, hostname plus remote path. -/
structure RemoteFsPath where
  hostname : String
  path : RPath
deriving DecidableEq, Repr

/-- `RemoteFsPath::to_path_buf` (src/addr.rs lines 13-24): strip the leading
separator from an absolute remote path, then join "remotefs", the hostname and
the path. -/
def RemoteFsPath.to_path_buf (r : RemoteFsPath) : RPath :=
  let path : RPath := if r.path.absolute then ⟨false, r.path.comps⟩ else r.path
  ((⟨false, ["remotefs"]⟩ : RPath).join (pathOfHostname r.hostname)).join path

/-- `RemoteFsPath::from_path` (src/addr.rs lines 26-53): strip a leading
separator, split into components; when the first component is the literal
"remotefs" and a hostname component follows, strip that prefix and return the
remainder, otherwise return none.  The `Except` layer mirrors the `?` on
`path.strip_prefix(prefix)`.  The Rust code converts each component with
`to_str().unwrap()`, so the embedding (over Lean strings, always valid UTF-8)
presumes the UTF-8 precondition. -/
def RemoteFsPath.from_path (p : RPath) : Except Unit (Option RemoteFsPath) :=
  let q : RPath := if p.absolute then ⟨false, p.comps⟩ else p
  match q.comps with
  | "remotefs" :: hostname :: _rest =>
    let pre := (⟨false, ["remotefs"]⟩ : RPath).join (pathOfHostname hostname)
    if pre.comps.isPrefixOf q.comps then
      .ok (some ⟨hostname, ⟨false, q.comps.drop pre.comps.length⟩⟩)
    else .error ()
  | _ => .ok none

/-- `src/config.rs`: a shell hook (working directory, shell command, and the
ignore-error flag). -/
structure RemoteFsHook where
  work_dir : Option RPath
  shell : String
  ignore_error : Bool
deriving DecidableEq, Repr

/-- `src/config.rs`: a mount — optional directory roots, exact files, globs,
ownership and permission overrides, and pre/post hooks. -/
structure RemoteFsMount where
  dirs : Option (List RPath)
  files : Option (List RPath)
  globs : Option (List String)
  uid : Option Nat
  gid : Option Nat
  mode : Option Nat
  pre_hooks : Option (List RemoteFsHook)
  post_hooks : Option (List RemoteFsHook)
deriving DecidableEq, Repr

/-- `RemoteFsMount::path_matches_mount` (src/config.rs lines 37-55): true when
the path equals one of the mount's exact files, or starts with one of the
mount's directory roots; false when neither `files` nor `dirs` produces a
match. -/
def RemoteFsMount.path_matches_mount (m : RemoteFsMount) (p : RPath) : Bool :=
  (match m.files with
   | some files => files.any (fun f => p = f)
   | none => false)
  || (match m.dirs with
      | some dirs => dirs.any (fun d => p.startsWith d)
      | none => false)

/-- `src/config.rs`: per-host connection parameters and the ordered mount
list. -/
structure RemoteFsHost where
  username : String
  port : Nat
  mounts : List RemoteFsMount
  ssh_private_key_path : RPath
  ssh_config_path : Option RPath
deriving DecidableEq, Repr

/-- `src/config.rs`: the whole configuration, a map hostname to host config
(the `HashMap` is modelled as an association list with `List.lookup`). -/
structure RemoteFsConfig where
  hosts : List (String × RemoteFsHost)
deriving DecidableEq, Repr

/-- `src/connector.rs`: the three operation kinds the planner can emit. -/
inductive RemoteFsConnectorOp where
  | copy
  | delete
  | exec (hook : RemoteFsHook)
deriving DecidableEq, Repr

/-- A planned operation as returned to the caller: the operation together with
its friendly message (the fields the call sites of the plan-element
constructor in src/connector.rs fill in). -/
structure PlanResponseElement where
  op : RemoteFsConnectorOp
  friendly_message : String
deriving DecidableEq, Repr

/-- Modelled from the spec: the connector-facing address decoding step used by
get/plan/op-exec, where a logical path that does not decode to a remotefs
address (decode yields none) is an address error for operations that require
one.  The decode itself is `RemoteFsPath.from_path` from src/addr.rs; only the
treatment of the none case lives in the external trait plumbing. -/
def decodeAddr (p : RPath) : Except Unit RemoteFsPath :=
  match RemoteFsPath.from_path p with
  | .error e => .error e
  | .ok none => .error ()
  | .ok (some a) => .ok a

/-- The reverse-order mount scan of `plan` (src/connector.rs lines 312-320):
starting from empty hook lists, take the pre and post hooks of the first mount
in reverse declaration order that governs the path. -/
def resolveHooks (mounts : List RemoteFsMount) (p : RPath) :
    List RemoteFsHook × List RemoteFsHook :=
  match mounts.reverse.find? (fun m => m.path_matches_mount p) with
  | some m => (m.pre_hooks.getD [], m.post_hooks.getD [])
  | none => ([], [])

/-- The plan element pushed for a hook (src/connector.rs lines 324-329 and
354-359). -/
def mkExecElem (h : RemoteFsHook) : PlanResponseElement :=
  ⟨.exec h, "Execute hook: " ++ h.shell⟩

/-- `RemoteFsConnector::plan` (src/connector.rs lines 297-362): decode the
address, compute the remote path, return the empty plan when the hostname is
not configured; otherwise collect the governing mount's hooks, push the
pre-hooks, then match on presence — returning a fresh empty list on
(none, none), a delete on (some, none) and a copy otherwise — and push the
post-hooks. -/
def plan (cfg : RemoteFsConfig) (addrPath : RPath)
    (current desired : Option (List Nat)) : Except Unit (List PlanResponseElement) :=
  match decodeAddr addrPath with
  | .error e => .error e
  | .ok addr =>
    let remote_path := rootPath.join addr.path
    match cfg.hosts.lookup addr.hostname with
    | none => .ok []
    | some host =>
      let hooks := resolveHooks host.mounts remote_path
      let pre := hooks.1.map mkExecElem
      let post := hooks.2.map mkExecElem
      match current, desired with
      | none, none => .ok []
      | some _, none =>
        .ok (pre
          ++ [⟨.delete, "Delete remote file at " ++ addr.hostname ++ "/" ++ addr.path.render⟩]
          ++ post)
      | some _, some _ =>
        .ok (pre
          ++ [⟨.copy, "Modify remote file at " ++ addr.hostname ++ "/" ++ addr.path.render⟩]
          ++ post)
      | none, some _ =>
        .ok (pre
          ++ [⟨.copy, "Create new remote file at " ++ addr.hostname ++ "/" ++ addr.path.render⟩]
          ++ post)

/-- An operation is a core (mutating) operation when it is not a hook
execution. -/
def isCoreOp : RemoteFsConnectorOp → Bool
  | .exec _ => false
  | _ => true

/-- The core operations of a plan result, in order. -/
def coreOps (r : Except Unit (List PlanResponseElement)) :
    Except Unit (List RemoteFsConnectorOp) :=
  r.map (fun l => (l.map (fun e => e.op)).filter isCoreOp)

/-- The operations of a plan result, in order. -/
def planOps (cfg : RemoteFsConfig) (addrPath : RPath)
    (current desired : Option (List Nat)) : Except Unit (List RemoteFsConnectorOp) :=
  (plan cfg addrPath current desired).map (List.map (fun e => e.op))

/-- The metadata passed to the remote create call (the `Metadata` value built
in the Copy branch of op-exec): ownership and permission overrides plus the
local file size. -/
structure RMetadata where
  uid : Option Nat
  gid : Option Nat
  mode : Option Nat
  size : Nat
deriving DecidableEq, Repr

/-- A remote call issued through a session, for tracing which remote
operations an embedded function performs. -/
inductive RCall where
  | connect (host : String)
  | rexists (p : RPath)
  | listDir (p : RPath)
  | openRead (p : RPath)
  | create (p : RPath) (m : RMetadata)
  | writeAll (p : RPath)
  | removeFile (p : RPath)
  | rexec (cmd : String)
  | pwd
  | changeDir (p : RPath)
deriving DecidableEq, Repr

/-- A remote directory entry as returned by list-dir (a `remotefs::File`):
its path and whether it is a directory. -/
structure RFile where
  path : RPath
  isDir : Bool
deriving DecidableEq, Repr

/-- Oracles describing how the remote host and the local filesystem respond to
each call the connector can make.  Transport failures are the `.error` cases;
`execRes` returns the command's exit status on transport success (the remotefs
transport reports a nonzero exit status as an ordinary Ok value). -/
structure Behavior where
  connectOk : String → Bool
  existsRes : RPath → Except Unit Bool
  listDirRes : RPath → Except Unit (List RFile)
  openOk : RPath → Bool
  readRes : RPath → Except Unit (List Nat)
  createOk : RPath → RMetadata → Bool
  writeOk : Bool
  removeOk : RPath → Bool
  execRes : String → Except Unit Nat
  pwdOk : Bool
  changeDirOk : RPath → Bool
  localLen : RPath → Except Unit Nat
  localRead : RPath → Except Unit (List Nat)

/-- `RemoteFsConnector::get_client` (src/connector.rs lines 99-130): return
the cached session without touching the configuration; otherwise fail when the
hostname is not configured (before any connection attempt), else attempt to
connect (the one remote call), caching on success.  The cache is modelled as
the list of hostnames currently cached. -/
def get_client (cfg : RemoteFsConfig) (cache : List String) (beh : Behavior)
    (hostname : String) : Except Unit Unit × List RCall :=
  if hostname ∈ cache then (.ok (), [])
  else
    match cfg.hosts.lookup hostname with
    | none => (.error (), [])
    | some _host =>
      if beh.connectOk hostname then (.ok (), [.connect hostname])
      else (.error (), [.connect hostname])

/-- `RemoteFsConnector::get` (src/connector.rs lines 278-295): decode the
address, acquire the session, test existence, and read the remote file when it
exists (ok none when it does not). -/
def getOp (cfg : RemoteFsConfig) (cache : List String) (beh : Behavior)
    (addrPath : RPath) : Except Unit (Option (List Nat)) × List RCall :=
  match decodeAddr addrPath with
  | .error _ => (.error (), [])
  | .ok addr =>
    let remote_path := rootPath.join addr.path
    match get_client cfg cache beh addr.hostname with
    | (.error _, tc) => (.error (), tc)
    | (.ok _, tc) =>
      match beh.existsRes remote_path with
      | .error _ => (.error (), tc ++ [.rexists remote_path])
      | .ok false => (.ok none, tc ++ [.rexists remote_path])
      | .ok true =>
        if beh.openOk remote_path then
          match beh.readRes remote_path with
          | .error _ =>
            (.error (), tc ++ [.rexists remote_path, .openRead remote_path])
          | .ok body =>
            (.ok (some body), tc ++ [.rexists remote_path, .openRead remote_path])
        else (.error (), tc ++ [.rexists remote_path, .openRead remote_path])

/-- `RemoteFsConnector::op_exec` (src/connector.rs lines 364-472): decode the
address and dispatch on the operation.  Copy acquires the session, looks the
host up again, scans the mounts in reverse for the first governing mount and
creates the remote file with that mount's uid/gid/mode (or with no overrides
when no mount governs), then writes the local bytes.  Delete removes the
remote file.  Exec runs the hook's shell command, bracketing it with pwd and
change-dir calls when the hook has a work-dir; each fallible call propagates
its error immediately, and neither the exit status returned by exec nor the
hook's ignore-error flag is consulted.  The result carries the outcome, the
remote calls issued, and the session's final working directory. -/
def opExec (cfg : RemoteFsConfig) (cache : List String) (beh : Behavior)
    (prefixPath : RPath) (cwd : RPath) (addrPath : RPath)
    (op : RemoteFsConnectorOp) : Except Unit String × List RCall × RPath :=
  match decodeAddr addrPath with
  | .error _ => (.error (), [], cwd)
  | .ok addr =>
    match op with
    | .copy =>
      let local_path := prefixPath.join addr.to_path_buf
      let remote_path := rootPath.join addr.path
      match get_client cfg cache beh addr.hostname with
      | (.error _, tc) => (.error (), tc, cwd)
      | (.ok _, tc) =>
        match cfg.hosts.lookup addr.hostname with
        | none => (.error (), tc, cwd)
        | some host =>
          match host.mounts.reverse.find? (fun m => m.path_matches_mount remote_path) with
          | some mount =>
            match beh.localLen local_path with
            | .error _ => (.error (), tc, cwd)
            | .ok size =>
              let meta : RMetadata := ⟨mount.uid, mount.gid, mount.mode, size⟩
              if beh.createOk remote_path meta then
                match beh.localRead local_path with
                | .error _ => (.error (), tc ++ [.create remote_path meta], cwd)
                | .ok _buf =>
                  if beh.writeOk then
                    (.ok ("Wrote remote file at " ++ addr.hostname ++ "/" ++ addr.path.render),
                      tc ++ [.create remote_path meta, .writeAll remote_path], cwd)
                  else (.error (), tc ++ [.create remote_path meta, .writeAll remote_path], cwd)
              else (.error (), tc ++ [.create remote_path meta], cwd)
          | none =>
            match beh.localLen local_path with
            | .error _ => (.error (), tc, cwd)
            | .ok size =>
              let meta : RMetadata := ⟨none, none, none, size⟩
              if beh.createOk remote_path meta then
                match beh.localRead local_path with
                | .error _ => (.error (), tc ++ [.create remote_path meta], cwd)
                | .ok _buf =>
                  if beh.writeOk then
                    (.ok ("Wrote remote file at " ++ addr.hostname ++ "/" ++ addr.path.render),
                      tc ++ [.create remote_path meta, .writeAll remote_path], cwd)
                  else (.error (), tc ++ [.create remote_path meta, .writeAll remote_path], cwd)
              else (.error (), tc ++ [.create remote_path meta], cwd)
    | .delete =>
      let remote_path := rootPath.join addr.path
      match get_client cfg cache beh addr.hostname with
      | (.error _, tc) => (.error (), tc, cwd)
      | (.ok _, tc) =>
        if beh.removeOk remote_path then
          (.ok ("Deleted remote file at " ++ addr.hostname ++ "/" ++ addr.path.render),
            tc ++ [.removeFile remote_path], cwd)
        else (.error (), tc ++ [.removeFile remote_path], cwd)
    | .exec hook =>
      match get_client cfg cache beh addr.hostname with
      | (.error _, tc) => (.error (), tc, cwd)
      | (.ok _, tc) =>
        match hook.work_dir with
        | some work_dir =>
          if beh.pwdOk then
            let old_workdir := cwd
            if beh.changeDirOk work_dir then
              match beh.execRes hook.shell with
              | .error _ =>
                (.error (), tc ++ [.pwd, .changeDir work_dir, .rexec hook.shell], work_dir)
              | .ok _exit_status =>
                if beh.changeDirOk old_workdir then
                  (.ok "Executed hook",
                    tc ++ [.pwd, .changeDir work_dir, .rexec hook.shell, .changeDir old_workdir],
                    old_workdir)
                else
                  (.error (),
                    tc ++ [.pwd, .changeDir work_dir, .rexec hook.shell, .changeDir old_workdir],
                    work_dir)
            else (.error (), tc ++ [.pwd, .changeDir work_dir], cwd)
          else (.error (), tc ++ [.pwd], cwd)
        | none =>
          match beh.execRes hook.shell with
          | .error _ => (.error (), tc ++ [.rexec hook.shell], cwd)
          | .ok _exit_status => (.ok "Executed hook", tc ++ [.rexec hook.shell], cwd)

mutual

/-- `RemoteFsConnector::list_recursive` (src/connector.rs lines 150-172): when
the directory does not exist, return the empty result after the single
existence check; otherwise list it and walk the children, recursing into
subdirectories and collecting files.  The natural number is fuel for the
unbounded recursion of the source (none means fuel ran out); the globs
parameter is accepted but, as in the source, never used to filter. -/
def list_recursive (beh : Behavior) (fuel : Nat) (dir : RPath)
    (globs : Option (List String)) :
    Option (Except Unit (List RFile) × List RCall) :=
  match fuel with
  | 0 => none
  | fuel' + 1 =>
    match beh.existsRes dir with
    | .error _ => some (.error (), [.rexists dir])
    | .ok false => some (.ok [], [.rexists dir])
    | .ok true =>
      match beh.listDirRes dir with
      | .error _ => some (.error (), [.rexists dir, .listDir dir])
      | .ok files =>
        match listChildren beh fuel' files globs with
        | none => none
        | some (res, tr) => some (res, .rexists dir :: .listDir dir :: tr)
termination_by (fuel, 0)

/-- The child loop of `list_recursive`: recurse into directories, keep
files, propagating errors and concatenating results and traces in order. -/
def listChildren (beh : Behavior) (fuel : Nat) (files : List RFile)
    (globs : Option (List String)) :
    Option (Except Unit (List RFile) × List RCall) :=
  match files with
  | [] => some (.ok [], [])
  | f :: fs =>
    if f.isDir then
      match list_recursive beh fuel f.path globs with
      | none => none
      | some (.error e, tr) => some (.error e, tr)
      | some (.ok sub, tr) =>
        match listChildren beh fuel fs globs with
        | none => none
        | some (.error e, tr2) => some (.error e, tr ++ tr2)
        | some (.ok rest, tr2) => some (.ok (sub ++ rest), tr ++ tr2)
    else
      match listChildren beh fuel fs globs with
      | none => none
      | some (.error e, tr2) => some (.error e, tr2)
      | some (.ok rest, tr2) => some (.ok (f :: rest), tr2)
termination_by (fuel, files.length + 1)

end

/-! Concrete fixtures used by witnesses and counterexamples. -/

/-- A host with no mounts. -/
def hostW : RemoteFsHost := ⟨"u", 22, [], ⟨true, ["root", "key"]⟩, none⟩

/-- A configuration with the single host "hostone" and no mounts. -/
def cfgW : RemoteFsConfig := ⟨[("hostone", hostW)]⟩

/-- A logical address under the remotefs namespace for host "hostone". -/
def apW : RPath := ⟨false, ["remotefs", "hostone", "etc", "rc"]⟩

/-- The decoding of `apW`. -/
def aW : RemoteFsPath := ⟨"hostone", ⟨false, ["etc", "rc"]⟩⟩

/-- A pre-hook. -/
def hook1 : RemoteFsHook := ⟨none, "h1", false⟩

/-- A post-hook. -/
def hook2 : RemoteFsHook := ⟨none, "h2", true⟩

/-- A mount over the directory root /etc carrying one pre-hook and one
post-hook. -/
def mountHooked : RemoteFsMount :=
  ⟨some [⟨true, ["etc"]⟩], none, none, none, none, none, some [hook1], some [hook2]⟩

/-- A host whose only mount is `mountHooked`. -/
def hostHooked : RemoteFsHost := ⟨"u", 22, [mountHooked], ⟨true, ["k"]⟩, none⟩

/-- A configuration mapping "hostone" to `hostHooked`. -/
def cfgHooked : RemoteFsConfig := ⟨[("hostone", hostHooked)]⟩

/-- Mount A of the precedence example: directory root /etc, uid 10. -/
def mountA : RemoteFsMount :=
  ⟨some [⟨true, ["etc"]⟩], none, none, some 10, some 10, some 420, none, none⟩

/-- Mount B of the precedence example: directory root /etc/cron, uid 20. -/
def mountB : RemoteFsMount :=
  ⟨some [⟨true, ["etc", "cron"]⟩], none, none, some 20, some 21, some 493, none, none⟩

/-- A host declaring mounts [A, B] in that order. -/
def hostAB : RemoteFsHost := ⟨"u", 22, [mountA, mountB], ⟨true, ["k"]⟩, none⟩

/-- A configuration mapping "hostone" to `hostAB`. -/
def cfgAB : RemoteFsConfig := ⟨[("hostone", hostAB)]⟩

/-- The logical address of /etc/cron/daily on "hostone". -/
def apCron : RPath := ⟨false, ["remotefs", "hostone", "etc", "cron", "daily"]⟩

/-- The decoding of `apCron`. -/
def aCron : RemoteFsPath := ⟨"hostone", ⟨false, ["etc", "cron", "daily"]⟩⟩

/-- A behavior where every remote and local call succeeds (and listed
directories are empty, commands exit 0). -/
def behDefault : Behavior where
  connectOk := fun _ => true
  existsRes := fun _ => .ok false
  listDirRes := fun _ => .ok []
  openOk := fun _ => true
  readRes := fun _ => .ok []
  createOk := fun _ _ => true
  writeOk := true
  removeOk := fun _ => true
  execRes := fun _ => .ok 0
  pwdOk := true
  changeDirOk := fun _ => true
  localLen := fun _ => .ok 3
  localRead := fun _ => .ok [1, 2, 3]

/-- Like `behDefault` but remote command execution fails in transport. -/
def behExecErr : Behavior := { behDefault with execRes := fun _ => .error () }

/-- Like `behDefault` but every remote command exits with status 1. -/
def behExitOne : Behavior := { behDefault with execRes := fun _ => .ok 1 }

/-- A hook that runs in the working directory /tmp. -/
def hookWd : RemoteFsHook := ⟨some ⟨true, ["tmp"]⟩, "reload", false⟩

/-! Helper lemmas. -/

/-- A linear scan finds the first element past a failing front segment. -/
theorem find?_eq_some_of_front_fail {α : Type} (p : α → Bool) (m : α)
    (hm : p m = true) :
    ∀ (front back : List α), (∀ x ∈ front, p x = false) →
      List.find? p (front ++ m :: back) = some m := by
  intro front back hfront
  induction front with
  | nil => simp [List.find?, hm]
  | cons a front' ih =>
    have ha := hfront a (List.mem_cons_self a front')
    simp only [List.cons_append, List.find?, ha]
    exact ih (fun x hx => hfront x (List.mem_cons_of_mem a hx))

/-- Scanning a mount list in reverse declaration order returns the last
declared mount that governs the path. -/
theorem reverse_find_last_match (l₁ l₂ : List RemoteFsMount) (m : RemoteFsMount)
    (p : RPath) (hm : m.path_matches_mount p = true)
    (hafter : ∀ m' ∈ l₂, m'.path_matches_mount p = false) :
    (l₁ ++ m :: l₂).reverse.find? (fun mm => mm.path_matches_mount p) = some m := by
  have hrev : (l₁ ++ m :: l₂).reverse = l₂.reverse ++ m :: l₁.reverse := by
    simp [List.reverse_append]
  rw [hrev]
  exact find?_eq_some_of_front_fail _ m hm l₂.reverse l₁.reverse
    (fun x hx => hafter x (List.mem_reverse.mp hx))

/-! The claims. -/

/-- C1: plan is a pure function of presence.  For a decodable address whose
hostname is configured, with no hooks on the governing mount the (none, none)
case returns the empty list; (some, none) yields exactly one core operation,
a delete; (none, some) and (some, some) yield exactly one core operation, a
copy; and the result never depends on the byte content of current or
desired. -/
theorem c1_plan_is_presence_driven
    (cfg : RemoteFsConfig) (addrPath : RPath) (a : RemoteFsPath) (host : RemoteFsHost)
    (hdec : decodeAddr addrPath = .ok a)
    (hhost : cfg.hosts.lookup a.hostname = some host)
    (hnohooks : resolveHooks host.mounts (rootPath.join a.path) = ([], []))
    (c d : List Nat) :
    plan cfg addrPath none none = .ok []
    ∧ coreOps (plan cfg addrPath (some c) none) = .ok [.delete]
    ∧ coreOps (plan cfg addrPath none (some d)) = .ok [.copy]
    ∧ coreOps (plan cfg addrPath (some c) (some d)) = .ok [.copy]
    ∧ (∀ c' d' : List Nat,
        plan cfg addrPath (some c) none = plan cfg addrPath (some c') none
        ∧ plan cfg addrPath none (some d) = plan cfg addrPath none (some d')
        ∧ plan cfg addrPath (some c) (some d) = plan cfg addrPath (some c') (some d')) := by
  refine ⟨?_, ?_, ?_, ?_, fun c' d' => ⟨?_, ?_, ?_⟩⟩ <;>
    simp [plan, coreOps, hdec, hhost, hnohooks, isCoreOp, mkExecElem, Except.map]

/-- Witness for C1 at a concrete configuration, address and byte bodies. -/
theorem c1_witness :
    decodeAddr apW = .ok aW
    ∧ cfgW.hosts.lookup aW.hostname = some hostW
    ∧ resolveHooks hostW.mounts (rootPath.join aW.path) = ([], [])
    ∧ coreOps (plan cfgW apW (some [7]) none) = .ok [.delete] :=
  ⟨by decide, by decide, by decide,
    (c1_plan_is_presence_driven cfgW apW aW hostW (by decide) (by decide) (by decide)
      [7] [8]).2.1⟩

/-- C9: with both current and desired absent, plan returns the empty list even
when the governing mount declares hooks: the pre-hooks collected before the
presence match are discarded by the early return. -/
theorem c9_none_none_plan_is_empty (cfg : RemoteFsConfig) (addrPath : RPath)
    (a : RemoteFsPath) (hdec : decodeAddr addrPath = .ok a) :
    plan cfg addrPath none none = .ok [] := by
  cases h : cfg.hosts.lookup a.hostname <;> simp [plan, hdec, h]

/-- Witness for C9 at a configuration whose governing mount does declare a
pre-hook and a post-hook. -/
theorem c9_witness :
    decodeAddr apW = .ok aW
    ∧ resolveHooks hostHooked.mounts (rootPath.join aW.path) = ([hook1], [hook2])
    ∧ plan cfgHooked apW none none = .ok [] :=
  ⟨by decide, by decide, c9_none_none_plan_is_empty cfgHooked apW aW (by decide)⟩

/-- C2: hooks bracket the core operation.  For a decodable address on a
configured host whose governing mount has pre-hook list P and post-hook list
Q, any presence pair with at least one side present yields exactly the
elements of P as exec operations in order, then the single core operation
(copy when desired is present, else delete), then the elements of Q as exec
operations in order. -/
theorem c2_hooks_bracket_core
    (cfg : RemoteFsConfig) (addrPath : RPath) (a : RemoteFsPath) (host : RemoteFsHost)
    (hdec : decodeAddr addrPath = .ok a)
    (hhost : cfg.hosts.lookup a.hostname = some host)
    (cur des : Option (List Nat)) (hpres : cur.isSome ∨ des.isSome) :
    planOps cfg addrPath cur des
      = .ok ((resolveHooks host.mounts (rootPath.join a.path)).1.map RemoteFsConnectorOp.exec
          ++ [if des.isSome then RemoteFsConnectorOp.copy else RemoteFsConnectorOp.delete]
          ++ (resolveHooks host.mounts (rootPath.join a.path)).2.map RemoteFsConnectorOp.exec) := by
  have hcomp : ((fun (e : PlanResponseElement) => e.op) ∘ mkExecElem) = RemoteFsConnectorOp.exec :=
    funext fun _ => rfl
  cases cur <;> cases des <;> simp at hpres <;>
    simp [planOps, plan, hdec, hhost, List.map_map, hcomp, Except.map]

/-- C3: mount resolution is last-match-wins.  When the host's mount list is
front ++ [m] ++ back, m governs the remote path and no mount declared after m
does, then the hooks the planner resolves are m's, and the Copy executor's
create call carries m's uid, gid and mode. -/
theorem c3_mount_resolution_last_match_wins
    (cfg : RemoteFsConfig) (cache : List String) (beh : Behavior)
    (prefixPath cwd addrPath : RPath) (a : RemoteFsPath) (host : RemoteFsHost)
    (l₁ l₂ : List RemoteFsMount) (m : RemoteFsMount) (sz : Nat) (buf : List Nat)
    (hdec : decodeAddr addrPath = .ok a)
    (hhost : cfg.hosts.lookup a.hostname = some host)
    (hmounts : host.mounts = l₁ ++ m :: l₂)
    (hm : m.path_matches_mount (rootPath.join a.path) = true)
    (hafter : ∀ m' ∈ l₂, m'.path_matches_mount (rootPath.join a.path) = false)
    (hcache : a.hostname ∈ cache)
    (hlen : beh.localLen (prefixPath.join a.to_path_buf) = .ok sz)
    (hcreate : beh.createOk (rootPath.join a.path) ⟨m.uid, m.gid, m.mode, sz⟩ = true)
    (hread : beh.localRead (prefixPath.join a.to_path_buf) = .ok buf)
    (hwrite : beh.writeOk = true) :
    resolveHooks host.mounts (rootPath.join a.path)
      = (m.pre_hooks.getD [], m.post_hooks.getD [])
    ∧ opExec cfg cache beh prefixPath cwd addrPath .copy
      = (.ok ("Wrote remote file at " ++ a.hostname ++ "/" ++ a.path.render),
         [.create (rootPath.join a.path) ⟨m.uid, m.gid, m.mode, sz⟩,
          .writeAll (rootPath.join a.path)], cwd) := by
  have hfind := reverse_find_last_match l₁ l₂ m (rootPath.join a.path) hm hafter
  rw [← hmounts] at hfind
  constructor
  · simp [resolveHooks, hfind]
  · simp [opExec, hdec, get_client, hcache, hhost, hfind, hlen, hcreate,
      hread, hwrite]

/-- Witness for C3 at the precedence example: mounts [A(dir /etc),
B(dir /etc/cron)] and the path /etc/cron/daily resolve to B's policy. -/
theorem c3_witness :
    decodeAddr apCron = .ok aCron
    ∧ cfgAB.hosts.lookup aCron.hostname = some hostAB
    ∧ hostAB.mounts = [mountA] ++ mountB :: []
    ∧ mountB.path_matches_mount (rootPath.join aCron.path) = true
    ∧ (∀ m' ∈ ([] : List RemoteFsMount),
        m'.path_matches_mount (rootPath.join aCron.path) = false)
    ∧ aCron.hostname ∈ ["hostone"]
    ∧ behDefault.localLen ((⟨false, ["repo"]⟩ : RPath).join aCron.to_path_buf) = .ok 3
    ∧ behDefault.createOk (rootPath.join aCron.path)
        ⟨mountB.uid, mountB.gid, mountB.mode, 3⟩ = true
    ∧ behDefault.localRead ((⟨false, ["repo"]⟩ : RPath).join aCron.to_path_buf)
        = .ok [1, 2, 3]
    ∧ behDefault.writeOk = true
    ∧ (resolveHooks hostAB.mounts (rootPath.join aCron.path)
        = (mountB.pre_hooks.getD [], mountB.post_hooks.getD [])
      ∧ opExec cfgAB ["hostone"] behDefault ⟨false, ["repo"]⟩ rootPath apCron .copy
        = (.ok ("Wrote remote file at " ++ aCron.hostname ++ "/" ++ aCron.path.render),
           [.create (rootPath.join aCron.path) ⟨mountB.uid, mountB.gid, mountB.mode, 3⟩,
            .writeAll (rootPath.join aCron.path)], rootPath)) :=
  ⟨by decide, by decide, by decide, by decide, by simp, by decide, by decide,
    by decide, by decide, by decide,
    c3_mount_resolution_last_match_wins cfgAB ["hostone"] behDefault
      ⟨false, ["repo"]⟩ rootPath apCron aCron hostAB [mountA] [] mountB 3 [1, 2, 3]
      (by decide) (by decide) (by decide) (by decide) (by simp) (by decide)
      (by decide) (by decide) (by decide) (by decide)⟩

/-- C4 (code bug): executing an Exec operation never consults the hook's
ignore-error flag — the result is invariant under flipping it — and a hook
whose remote execution reports a nonzero exit status still succeeds, because
the exit status returned by the exec call is discarded. -/
theorem c4_ignore_error_never_consulted :
    (∀ (cfg : RemoteFsConfig) (cache : List String) (beh : Behavior)
       (prefixPath cwd addrPath : RPath) (hook : RemoteFsHook) (b : Bool),
       opExec cfg cache beh prefixPath cwd addrPath (.exec hook)
         = opExec cfg cache beh prefixPath cwd addrPath
             (.exec ⟨hook.work_dir, hook.shell, b⟩))
    ∧ opExec cfgW ["hostone"] behExitOne ⟨false, []⟩ rootPath apW
        (.exec ⟨none, "exit 1", false⟩)
      = (.ok "Executed hook", [.rexec "exit 1"], rootPath) := by
  constructor
  · intro cfg cache beh prefixPath cwd addrPath hook b
    cases hook with
    | mk wd sh ie =>
      cases hdec : decodeAddr addrPath with
      | error e => simp [opExec, hdec]
      | ok a => simp [opExec, hdec]
  · decide

/-- C5 (amended): the session's working directory is restored whenever op-exec
returns successfully; on a transport failure during the hook command it can be
left at the hook's work-dir (see the counterexample). -/
theorem c5_workdir_restored_on_success
    (cfg : RemoteFsConfig) (cache : List String) (beh : Behavior)
    (prefixPath cwd addrPath : RPath) (hook : RemoteFsHook)
    (r : String) (tr : List RCall) (cwdEnd : RPath)
    (h : opExec cfg cache beh prefixPath cwd addrPath (.exec hook)
          = (.ok r, tr, cwdEnd)) :
    cwdEnd = cwd := by
  unfold opExec at h
  repeat' split at h
  all_goals try (cases hc : beh.changeDirOk cwd <;> simp [hc] at h)
  all_goals simp_all

/-- Witness for C5: a fully successful hook execution with a work-dir ends
with the working directory it started with. -/
theorem c5_witness :
    opExec cfgW ["hostone"] behDefault ⟨false, []⟩ ⟨true, ["home"]⟩ apW (.exec hookWd)
      = (.ok "Executed hook",
         [.pwd, .changeDir ⟨true, ["tmp"]⟩, .rexec "reload", .changeDir ⟨true, ["home"]⟩],
         ⟨true, ["home"]⟩)
    ∧ (⟨true, ["home"]⟩ : RPath) = ⟨true, ["home"]⟩ :=
  ⟨by decide,
    c5_workdir_restored_on_success cfgW ["hostone"] behDefault ⟨false, []⟩
      ⟨true, ["home"]⟩ apW hookWd "Executed hook"
      [.pwd, .changeDir ⟨true, ["tmp"]⟩, .rexec "reload", .changeDir ⟨true, ["home"]⟩]
      ⟨true, ["home"]⟩ (by decide)⟩

/-- C5 counterexample: when the hook command itself fails in transport, the
early return skips the restoring change-dir and the session is left in the
hook's work-dir, not the original working directory. -/
theorem c5_counterexample :
    opExec cfgW ["hostone"] behExecErr ⟨false, []⟩ ⟨true, ["home"]⟩ apW (.exec hookWd)
      = (.error (), [.pwd, .changeDir ⟨true, ["tmp"]⟩, .rexec "reload"], ⟨true, ["tmp"]⟩)
    ∧ (⟨true, ["tmp"]⟩ : RPath) ≠ (⟨true, ["home"]⟩ : RPath) := by decide

/-- C7 (amended): for an address whose hostname is not configured (and not
cached), session acquisition, get and op-exec abort with an error before any
remote call; plan, however, returns the empty plan (not an error).  In all
cases no remote call is issued. -/
theorem c7_unknown_host_no_remote_calls
    (cfg : RemoteFsConfig) (cache : List String) (beh : Behavior)
    (addrPath : RPath) (a : RemoteFsPath)
    (hdec : decodeAddr addrPath = .ok a)
    (hnohost : cfg.hosts.lookup a.hostname = none)
    (hnocache : a.hostname ∉ cache) :
    get_client cfg cache beh a.hostname = (.error (), [])
    ∧ getOp cfg cache beh addrPath = (.error (), [])
    ∧ (∀ cur des : Option (List Nat), plan cfg addrPath cur des = .ok [])
    ∧ (∀ (prefixPath cwd : RPath) (op : RemoteFsConnectorOp),
        opExec cfg cache beh prefixPath cwd addrPath op = (.error (), [], cwd)) := by
  have hgc : get_client cfg cache beh a.hostname = (.error (), []) := by
    simp [get_client, hnocache, hnohost]
  refine ⟨hgc, ?_, ?_, ?_⟩
  · simp [getOp, hdec, hgc]
  · intro cur des
    cases cur <;> cases des <;> simp [plan, hdec, hnohost]
  · intro prefixPath cwd op
    cases op <;> simp [opExec, hdec, hgc, hnohost]

/-- Witness for C7 at the empty configuration. -/
theorem c7_witness :
    decodeAddr apW = .ok aW
    ∧ (⟨[]⟩ : RemoteFsConfig).hosts.lookup aW.hostname = none
    ∧ aW.hostname ∉ ([] : List String)
    ∧ get_client ⟨[]⟩ [] behDefault aW.hostname = (.error (), []) :=
  ⟨by decide, by decide, by decide,
    (c7_unknown_host_no_remote_calls ⟨[]⟩ [] behDefault apW aW (by decide)
      (by decide) (by decide)).1⟩

/-- C7 counterexample: plan on an unknown hostname returns the empty plan
successfully instead of aborting with a configuration error. -/
theorem c7_counterexample :
    plan ⟨[]⟩ apW (some [1]) none = .ok []
    ∧ plan ⟨[]⟩ apW (some [1]) none ≠ .error () := by decide

/-- C8: recursive enumeration of a root directory that does not exist returns
the empty result successfully, after the single existence check and with no
list-dir call and no recursion. -/
theorem c8_missing_root_short_circuit (beh : Behavior) (dir : RPath)
    (globs : Option (List String)) (n : Nat)
    (hmiss : beh.existsRes dir = .ok false) :
    list_recursive beh (n + 1) dir globs = some (.ok [], [.rexists dir]) := by
  rw [list_recursive]
  rw [hmiss]

/-- Witness for C8 at a concrete behavior and directory. -/
theorem c8_witness :
    behDefault.existsRes ⟨true, ["nosuch"]⟩ = .ok false
    ∧ list_recursive behDefault 1 ⟨true, ["nosuch"]⟩ none
        = some (.ok [], [.rexists ⟨true, ["nosuch"]⟩]) :=
  ⟨by decide,
    c8_missing_root_short_circuit behDefault ⟨true, ["nosuch"]⟩ none 0 (by decide)⟩

/-- Witness for C2: with P = [h1], Q = [h2] and (none, some) the plan is
exactly [Exec h1, Copy, Exec h2]. -/
theorem c2_witness :
    decodeAddr apW = .ok aW
    ∧ cfgHooked.hosts.lookup aW.hostname = some hostHooked
    ∧ ((none : Option (List Nat)).isSome ∨ (some [9] : Option (List Nat)).isSome)
    ∧ planOps cfgHooked apW none (some [9])
        = .ok [.exec hook1, .copy, .exec hook2] := by
  refine ⟨by decide, by decide, by simp, ?_⟩
  have h := c2_hooks_bracket_core cfgHooked apW aW hostHooked (by decide) (by decide)
    none (some [9]) (by simp)
  rw [h]
  decide

/-- C6 (amended): the address codec round-trips for every hostname that is
nonempty, not the "." component and contains no path separator, and every
relative remote path all of whose components are normal (neither empty nor
"."); degenerate hostnames such as the empty string break the round trip (see
the counterexample) because path normalization erases them from the encoded
path.  The no-separator hypothesis is what justifies modelling the hostname as
a single path component. -/
theorem c6_round_trip (h : String) (p : RPath)
    (hsep : '/' ∉ h.data) (hne : h ≠ "") (hdot : h ≠ ".")
    (hrel : p.absolute = false)
    (hcomps : ∀ c ∈ p.comps, isNormalComp c = true) :
    RemoteFsPath.from_path (RemoteFsPath.to_path_buf ⟨h, p⟩) = .ok (some ⟨h, p⟩) := by
  obtain ⟨pabs, pcomps⟩ := p
  have hpabs : pabs = false := hrel
  subst hpabs
  have hfilter : pcomps.filter isNormalComp = pcomps :=
    List.filter_eq_self.mpr (fun c hc => hcomps c hc)
  have hh : isNormalComp h = true := by simp [isNormalComp, hne, hdot]
  have henc : RemoteFsPath.to_path_buf ⟨h, ⟨false, pcomps⟩⟩
      = ⟨false, "remotefs" :: h :: pcomps⟩ := by
    simp [RemoteFsPath.to_path_buf, RPath.join, pathOfHostname, hne, hh, hfilter]
  rw [henc]
  have hpre : ((⟨false, ["remotefs"]⟩ : RPath).join (pathOfHostname h)).comps
      = ["remotefs", h] := by
    simp [RPath.join, pathOfHostname, hne, hh]
  simp [RemoteFsPath.from_path, hpre, List.isPrefixOf]

/-- C6 counterexample: the empty hostname contains no path separator, yet
encoding ("", etc) and decoding yields hostname "etc" with the empty path, not
the original pair, because joining the empty hostname contributes no path
component. -/
theorem c6_counterexample :
    '/' ∉ ("" : String).data
    ∧ RemoteFsPath.from_path (RemoteFsPath.to_path_buf ⟨"", ⟨false, ["etc"]⟩⟩)
        = .ok (some ⟨"etc", ⟨false, []⟩⟩)
    ∧ RemoteFsPath.from_path (RemoteFsPath.to_path_buf ⟨"", ⟨false, ["etc"]⟩⟩)
        ≠ .ok (some ⟨"", ⟨false, ["etc"]⟩⟩) := by decide

/-- Witness for C6 at a concrete hostname and path. -/
theorem c6_witness :
    '/' ∉ ("hostone" : String).data
    ∧ ("hostone" : String) ≠ ""
    ∧ ("hostone" : String) ≠ "."
    ∧ (⟨false, ["etc", "rc"]⟩ : RPath).absolute = false
    ∧ (∀ c ∈ (⟨false, ["etc", "rc"]⟩ : RPath).comps, isNormalComp c = true)
    ∧ RemoteFsPath.from_path (RemoteFsPath.to_path_buf ⟨"hostone", ⟨false, ["etc", "rc"]⟩⟩)
        = .ok (some ⟨"hostone", ⟨false, ["etc", "rc"]⟩⟩) :=
  ⟨by decide, by decide, by decide, rfl, by decide,
    c6_round_trip "hostone" ⟨false, ["etc", "rc"]⟩ (by decide) (by decide) (by decide)
      rfl (by decide)⟩

/-- C10: for every input path (components are Lean strings, so the UTF-8
precondition of the embedding holds by construction), from-path returns
normally and never yields an error: it yields some decoded address exactly
when, after stripping an optional leading separator, the first component is
the literal token "remotefs" and at least a hostname component follows, and ok
none otherwise. -/
theorem c10_from_path_total (p : RPath) :
    (∀ hostname rest, p.comps = "remotefs" :: hostname :: rest →
      ∃ r, RemoteFsPath.from_path p = .ok (some r)
        ∧ r.hostname = hostname ∧ r.path.absolute = false)
    ∧ ((∀ hostname rest, p.comps ≠ "remotefs" :: hostname :: rest) →
      RemoteFsPath.from_path p = .ok none) := by
  have hq : RemoteFsPath.from_path p = RemoteFsPath.from_path ⟨false, p.comps⟩ := by
    obtain ⟨pabs, comps⟩ := p
    cases pabs <;> rfl
  constructor
  · intro hostname rest heq
    rw [hq, heq]
    have hpre : (((⟨false, ["remotefs"]⟩ : RPath).join (pathOfHostname hostname)).comps).isPrefixOf
        ("remotefs" :: hostname :: rest) = true := by
      by_cases h0 : hostname = ""
      · subst h0
        simp [pathOfHostname, RPath.join, List.isPrefixOf]
      · by_cases h1 : hostname = "."
        · subst h1
          simp [pathOfHostname, RPath.join, List.isPrefixOf, isNormalComp]
        · have hh : isNormalComp hostname = true := by simp [isNormalComp, h0, h1]
          simp [pathOfHostname, RPath.join, h0, hh, List.isPrefixOf]
    refine ⟨⟨hostname, ⟨false, ("remotefs" :: hostname :: rest).drop
      (((⟨false, ["remotefs"]⟩ : RPath).join (pathOfHostname hostname)).comps.length)⟩⟩,
      ?_, rfl, rfl⟩
    simp [RemoteFsPath.from_path, hpre]
  · intro hnone
    rw [hq]
    rcases hcs : p.comps with _ | ⟨c, _ | ⟨h2, t2⟩⟩
    · rfl
    · simp only [RemoteFsPath.from_path]
      split
      · rename_i hostname2 rest2 heq2
        simp at heq2
      · rfl
    · have hc : c ≠ "remotefs" := by
        intro hcc
        exact hnone h2 t2 (hcs.trans (by rw [hcc]))
      simp only [RemoteFsPath.from_path]
      split
      · rename_i hostname2 rest2 heq2
        injection heq2 with hhead htail
        exact absurd hhead hc
      · rfl

/-- Witness for C10 at a concrete namespaced logical path. -/
theorem c10_witness :
    apW.comps = "remotefs" :: "hostone" :: ["etc", "rc"]
    ∧ ∃ r, RemoteFsPath.from_path apW = .ok (some r)
        ∧ r.hostname = "hostone" ∧ r.path.absolute = false :=
  ⟨by decide, (c10_from_path_total apW).1 "hostone" ["etc", "rc"] (by decide)⟩
